import Mathlib

/-
Verification of the gmail_autosort triage pipeline (src/main.py).

The embedding models:
- the Decision Store file (inbox_saved.txt) at the byte level as a list of
  characters, with save_inbox_id / load_inbox_saved_ids translated from the
  Python file operations (load iterates lines and strips each line; save
  appends the identifier followed by a newline);
- the verdict-interpretation step of classify_email_with_gemini
  (response.text.strip().upper() matched against the two bracketed tokens);
- process_inbox as a state machine: the while-loop over listing pages, the
  for-loop over message stubs on a page, the in-memory saved-id set, the
  three counters, and the outer try/except whose break aborts the whole
  pagination loop on any exception raised while listing, fetching or
  archiving.  External collaborators (Gmail listing/fetch/modify, Gemini)
  are parameters of the run.  Ghost fields (seenIds, fetchedIds,
  oracleCalls, archivedIds) record which identifiers were iterated,
  fetched, classified and archived; they influence no control flow.
-/

namespace GmailAutosort

/-! ## Python string primitives used by main.py -/

/-- Characters removed by Python str.strip() with no argument. -/
def isPySpace (c : Char) : Bool :=
  c = ' ' || c = '\t' || c = '\n' || c = '\r' || c = '\x0b' || c = '\x0c'

/-- Python str.strip(): drop leading and trailing whitespace characters. -/
def stripChars (l : List Char) : List Char :=
  ((l.dropWhile isPySpace).reverse.dropWhile isPySpace).reverse

/-- Python str.strip() on a Lean string. -/
def pyStrip (s : String) : String :=
  String.mk (stripChars s.data)

/-- Python str.upper() restricted to ASCII (all strings main.py compares are ASCII). -/
def pyUpper (s : String) : String :=
  String.mk (s.data.map Char.toUpper)

/-- Python str.lower() restricted to ASCII. -/
def pyLower (s : String) : String :=
  String.mk (s.data.map Char.toLower)

/-! ## Decision Store file model (inbox_saved.txt)

The file content is a list of characters.  Python file iteration
(for line in f) yields the maximal newline-terminated chunks; each yielded
line carries its terminating newline, which str.strip() removes, so we
produce the lines already without their terminator. -/

/-- Python file iteration: split content into lines (terminators removed).
A trailing chunk without a newline is still one line; empty content yields
no lines. -/
def fileLines : List Char → List (List Char)
  | [] => []
  | c :: rest =>
    if c = '\n' then [] :: fileLines rest
    else
      match fileLines rest with
      | [] => [[c]]
      | l :: ls => (c :: l) :: ls

/-- load_inbox_saved_ids (main.py lines 69-76): read the file and build the
set of stripped lines.  (The FileNotFoundError branch corresponds to empty
content.) -/
def load_inbox_saved_ids (content : List Char) : Finset (List Char) :=
  ((fileLines content).map stripChars).toFinset

/-- save_inbox_id (main.py lines 78-82): append the message id plus a
newline to the file. -/
def save_inbox_id (content : List Char) (messageId : List Char) : List Char :=
  content ++ messageId ++ ['\n']

/-! ## Verdict interpretation (classify_email_with_gemini, main.py lines 123-134)

The raw oracle response is stripped and upper-cased; only the two bracketed
tokens are accepted, anything else yields None (the UNKNOWN verdict). -/

/-- The verdict-interpretation step of classify_email_with_gemini:
decision = response.text.strip().upper(); accepted iff it is one of the two
bracketed tokens, otherwise None. -/
def interpretDecision (raw : String) : Option String :=
  let decision := pyUpper (pyStrip raw)
  if decision = "[ARCHIVE]" ∨ decision = "[INBOX]" then some decision else none

/-! ## Message metadata and email_data construction (main.py lines 176-189) -/

/-- Metadata returned by messages().get: the payload headers (name, value)
and the optional snippet. A missing payload or missing headers key is the
empty header list. -/
structure RawMsg where
  headers : List (String × String)
  snippet : Option String
  deriving DecidableEq

/-- The email_data dictionary passed to classify_email_with_gemini. -/
structure EmailData where
  id : String
  subject : String
  sender : String
  snippet : String
  deriving DecidableEq

/-- next((header.value for header in headers if header.name.lower() == name), defaultVal). -/
def headerValue (headers : List (String × String)) (name : String) (defaultVal : String) : String :=
  match headers.find? (fun h => pyLower h.1 == name) with
  | some h => h.2
  | none => defaultVal

/-- Build email_data from fetched metadata (main.py lines 178-189):
subject and sender default to the placeholder, snippet defaults to the
empty string via msg.get. -/
def buildEmailData (msgId : String) (msg : RawMsg) : EmailData :=
  { id := msgId
    subject := headerValue msg.headers "subject" "N/A"
    sender := headerValue msg.headers "from" "N/A"
    snippet := msg.snippet.getD "" }

/-! ## The run environment: external collaborators -/

/-- One response of the Gmail listing call: the message ids on the page and
the optional nextPageToken. -/
structure Page where
  messages : List String
  nextPageToken : Option String
  deriving DecidableEq

/-- External collaborators of one run: the fetch call (messages().get, may
raise), the Gemini call (model.generate_content, may raise), whether the
archive mutation (messages().modify) succeeds, and the GEMINI_API_KEY. -/
structure Env where
  fetch : String → Except Unit RawMsg
  oracle : EmailData → Except Unit String
  archiveOk : String → Bool
  geminiApiKey : Option String

/-- classify_email_with_gemini (main.py lines 85-134): None when the API key
is missing, None when the API call raises, otherwise the interpreted
decision. -/
def classify_email_with_gemini (env : Env) (e : EmailData) : Option String :=
  match env.geminiApiKey with
  | none => none
  | some _ =>
    match env.oracle e with
    | Except.error _ => none
    | Except.ok raw => interpretDecision raw

/-! ## process_inbox state (main.py lines 137-230) -/

/-- The mutable state of one process_inbox run: the Decision Store contents
(ids, in file order), the in-memory saved_inbox_ids set (membership is all
that the code uses, so a list suffices), the three counters, and ghost
trace fields recording which ids were iterated, fetched, classified and
archived. -/
structure RunState where
  store : List String
  savedInboxIds : List String
  processed : Nat
  archived : Nat
  inboxCount : Nat
  seenIds : List String
  fetchedIds : List String
  oracleCalls : List String
  archivedIds : List String
  deriving DecidableEq

/-- State at the top of process_inbox: the saved set is loaded from the
store, counters are zero. -/
def initState (store0 : List String) : RunState :=
  { store := store0
    savedInboxIds := store0
    processed := 0
    archived := 0
    inboxCount := 0
    seenIds := []
    fetchedIds := []
    oracleCalls := []
    archivedIds := [] }

/-- The undecided count of the Summary: messages processed but neither
archived nor saved to the inbox. -/
def undecided (s : RunState) : Nat :=
  s.processed - s.archived - s.inboxCount

/-- One iteration of the for-loop over message stubs (main.py lines
168-213).  Except.error s means an exception escaped the iteration (failing
fetch, or failing archive mutation) and is caught by the outer except,
which breaks the pagination loop with state s. -/
def processMsg (env : Env) (s : RunState) (msgId : String) : Except RunState RunState :=
  let s0 := { s with seenIds := s.seenIds ++ [msgId] }
  if msgId ∈ s0.savedInboxIds then
    Except.ok s0
  else
    let s1 := { s0 with fetchedIds := s0.fetchedIds ++ [msgId] }
    match env.fetch msgId with
    | Except.error _ => Except.error s1
    | Except.ok rawMsg =>
      let decision := classify_email_with_gemini env (buildEmailData msgId rawMsg)
      let s2 := { s1 with oracleCalls := s1.oracleCalls ++ [msgId], processed := s1.processed + 1 }
      if decision = some "[ARCHIVE]" then
        if env.archiveOk msgId then
          Except.ok { s2 with archived := s2.archived + 1, archivedIds := s2.archivedIds ++ [msgId] }
        else
          Except.error s2
      else if decision = some "[INBOX]" then
        Except.ok { s2 with store := s2.store ++ [msgId]
                            savedInboxIds := msgId :: s2.savedInboxIds
                            inboxCount := s2.inboxCount + 1 }
      else
        Except.ok s2

/-- The for-loop over one page of message stubs; stops early when an
iteration raises. -/
def processPage (env : Env) (s : RunState) (msgs : List String) : Except RunState RunState :=
  match msgs with
  | [] => Except.ok s
  | m :: rest =>
    match processMsg env s m with
    | Except.error s1 => Except.error s1
    | Except.ok s1 => processPage env s1 rest

/-- The while-loop of process_inbox (main.py lines 156-224) over the
successive listing responses.  An Except.error page is a listing call that
raised (caught, break); an empty page breaks; an exception while processing
a page breaks; a missing nextPageToken breaks; otherwise the loop advances
to the next listing response. -/
def runPages (env : Env) (s : RunState) (pages : List (Except Unit Page)) : RunState :=
  match pages with
  | [] => s
  | Except.error _ :: _ => s
  | Except.ok p :: rest =>
    if p.messages.isEmpty then s
    else
      match processPage env s p.messages with
      | Except.error s1 => s1
      | Except.ok s1 =>
        match p.nextPageToken with
        | none => s1
        | some _ => runPages env s1 rest

/-- process_inbox: load the saved ids, run the pagination loop. -/
def process_inbox (env : Env) (pages : List (Except Unit Page)) (store0 : List String) : RunState :=
  runPages env (initState store0) pages

/-- The state carried by a step result, whether the step returned normally
or raised (the outer except hands the same state to the summary either
way). -/
def resState : Except RunState RunState → RunState
  | Except.ok s => s
  | Except.error s => s

/-- The decision the pipeline would reach for an id in this environment:
None when the fetch raises (the run aborts before classifying), otherwise
the classification of the built email_data.  Deterministic because the
collaborators are functions of the id and metadata. -/
def decisionOf (env : Env) (msgId : String) : Option String :=
  match env.fetch msgId with
  | Except.error _ => none
  | Except.ok rawMsg => classify_email_with_gemini env (buildEmailData msgId rawMsg)

/-- All message ids appearing on the (successful) pages of a listing
script. -/
def listedIds (pages : List (Except Unit Page)) : List String :=
  pages.foldr (fun pg acc =>
    match pg with
    | Except.error _ => acc
    | Except.ok p => p.messages ++ acc) []

/-! ## Concrete environments used to evaluate the model on explicit inputs -/

/-- Fetched metadata used by the concrete environments: one subject header,
one sender header, a snippet. -/
def sampleRaw : RawMsg :=
  { headers := [("Subject", "hello"), ("From", "a@b")], snippet := some "snip" }

/-- Environment whose oracle always answers the bracketed inbox token and
whose remote calls all succeed. -/
def inboxEnv : Env :=
  { fetch := fun _ => Except.ok sampleRaw
    oracle := fun _ => Except.ok "[INBOX]"
    archiveOk := fun _ => true
    geminiApiKey := some "key" }

/-- Environment whose fetch call raises on id a and succeeds elsewhere;
the oracle always answers the bracketed archive token. -/
def fetchFailEnv : Env :=
  { fetch := fun i => if i = "a" then Except.error () else Except.ok sampleRaw
    oracle := fun _ => Except.ok "[ARCHIVE]"
    archiveOk := fun _ => true
    geminiApiKey := some "key" }

/-- Environment whose oracle call always raises. -/
def oracleFailEnv : Env :=
  { fetch := fun _ => Except.ok sampleRaw
    oracle := fun _ => Except.error ()
    archiveOk := fun _ => true
    geminiApiKey := some "key" }

/-- Environment whose archive mutation always raises; the oracle always
answers the bracketed archive token. -/
def archiveFailEnv : Env :=
  { fetch := fun _ => Except.ok sampleRaw
    oracle := fun _ => Except.ok "[ARCHIVE]"
    archiveOk := fun _ => false
    geminiApiKey := some "key" }

/-- Environment whose oracle archives id a, retains id b and answers out of
taxonomy for everything else; all remote calls succeed. -/
def mixedEnv : Env :=
  { fetch := fun _ => Except.ok sampleRaw
    oracle := fun e =>
      Except.ok (if e.id = "a" then "[ARCHIVE]" else if e.id = "b" then "[INBOX]" else "dunno")
    archiveOk := fun _ => true
    geminiApiKey := some "key" }

/-! # Theorems -/

/-- classify_email_with_gemini can only produce the archive token, the
inbox token, or None. -/
theorem classify_cases (env : Env) (e : EmailData) :
    classify_email_with_gemini env e = some "[ARCHIVE]" ∨
    classify_email_with_gemini env e = some "[INBOX]" ∨
    classify_email_with_gemini env e = none := by
  cases hk : env.geminiApiKey with
  | none => simp [classify_email_with_gemini, hk]
  | some k =>
    cases ho : env.oracle e with
    | error u => simp [classify_email_with_gemini, hk, ho]
    | ok raw =>
      simp only [classify_email_with_gemini, hk, ho]
      unfold interpretDecision
      by_cases h : pyUpper (pyStrip raw) = "[ARCHIVE]" ∨ pyUpper (pyStrip raw) = "[INBOX]"
      · rcases h with h | h
        · left; simp [h]
        · right; left; simp [h]
      · right; right; simp [h]

/-- Skipping a saved id changes nothing but the ghost iteration trace. -/
theorem processMsg_skip (env : Env) (s : RunState) (msgId : String)
    (h : msgId ∈ s.savedInboxIds) :
    processMsg env s msgId = Except.ok { s with seenIds := s.seenIds ++ [msgId] } := by
  simp [processMsg, h]

/-- C3 counterexample: the claim maps the raw strings "ARCHIVE" and
" Archive " to the ARCHIVE verdict, but the code accepts only the bracketed
token after strip and upper, so both interpret to None (UNKNOWN). -/
theorem verdict_normalization_cex :
    interpretDecision "ARCHIVE" = none ∧ interpretDecision " Archive " = none := by
  decide

/-- C3 (amended): "[archive]" normalizes to the ARCHIVE verdict; "ARCHIVE"
and " Archive " normalize to UNKNOWN because the bracketed token is
required; every string whose stripped, upper-cased form is neither
"[ARCHIVE]" nor "[INBOX]" yields UNKNOWN. -/
theorem verdict_normalization :
    interpretDecision "[archive]" = some "[ARCHIVE]" ∧
    interpretDecision "ARCHIVE" = none ∧
    interpretDecision " Archive " = none ∧
    ∀ raw : String,
      ¬(pyUpper (pyStrip raw) = "[ARCHIVE]" ∨ pyUpper (pyStrip raw) = "[INBOX]") →
      interpretDecision raw = none := by
  refine ⟨by decide, by decide, by decide, ?_⟩
  intro raw h
  simp [interpretDecision, h]

/-- C3 witness: the universally quantified part of the normalization
theorem applied at a concrete out-of-taxonomy response. -/
theorem verdict_normalization_witness :
    interpretDecision "maybe archive it" = none :=
  verdict_normalization.2.2.2 "maybe archive it" (by decide)

/-- C6 counterexample: id a is listed and already present in the in-memory
retained set; the run skips it but the Summary retained count stays 0, so a
skip does not count toward retained as the claim states. -/
theorem skip_retained_count_cex :
    (process_inbox inboxEnv [Except.ok ⟨["a"], none⟩] ["a"]).inboxCount = 0 ∧
    (process_inbox inboxEnv [Except.ok ⟨["a"], none⟩] ["a"]).processed = 0 := by
  decide

/-- C6 (amended): a listed id already in the in-memory retained set is
skipped without reprocessing — no fetch, no oracle call, no counter
increment; the skip counts toward no Summary counter (in particular not
toward retained). -/
theorem skip_not_reprocessed (env : Env) (s : RunState) (msgId : String)
    (h : msgId ∈ s.savedInboxIds) :
    ∃ s1, processMsg env s msgId = Except.ok s1 ∧
      s1.processed = s.processed ∧ s1.archived = s.archived ∧
      s1.inboxCount = s.inboxCount ∧ s1.fetchedIds = s.fetchedIds ∧
      s1.oracleCalls = s.oracleCalls ∧ s1.store = s.store ∧
      s1.savedInboxIds = s.savedInboxIds := by
  exact ⟨_, processMsg_skip env s msgId h, rfl, rfl, rfl, rfl, rfl, rfl, rfl⟩

/-- C6 witness: the amended skip theorem applied to a concrete state whose
saved set holds the listed id. -/
theorem skip_not_reprocessed_witness :
    ∃ s1, processMsg inboxEnv (initState ["a"]) "a" = Except.ok s1 ∧
      s1.processed = (initState ["a"]).processed ∧
      s1.archived = (initState ["a"]).archived ∧
      s1.inboxCount = (initState ["a"]).inboxCount ∧
      s1.fetchedIds = (initState ["a"]).fetchedIds ∧
      s1.oracleCalls = (initState ["a"]).oracleCalls ∧
      s1.store = (initState ["a"]).store ∧
      s1.savedInboxIds = (initState ["a"]).savedInboxIds :=
  skip_not_reprocessed inboxEnv (initState ["a"]) "a" (by decide)

/-- C8: a message with no subject header is classified with subject
placeholder N/A, no sender header gives sender placeholder N/A, a missing
snippet gives the empty string, and the classification function is total:
it always yields the archive token, the inbox token, or None. -/
theorem classification_total_with_placeholders :
    ∀ (msgId : String) (msg : RawMsg),
      ((∀ p ∈ msg.headers, pyLower p.1 ≠ "subject") →
        (buildEmailData msgId msg).subject = "N/A") ∧
      ((∀ p ∈ msg.headers, pyLower p.1 ≠ "from") →
        (buildEmailData msgId msg).sender = "N/A") ∧
      (msg.snippet = none → (buildEmailData msgId msg).snippet = "") ∧
      (∀ (env : Env) (e : EmailData),
        classify_email_with_gemini env e = some "[ARCHIVE]" ∨
        classify_email_with_gemini env e = some "[INBOX]" ∨
        classify_email_with_gemini env e = none) := by
  intro msgId msg
  refine ⟨?_, ?_, ?_, ?_⟩
  · intro h
    have hf : msg.headers.find? (fun p => pyLower p.1 == "subject") = none :=
      List.find?_eq_none.mpr (fun x hx => by simpa using h x hx)
    simp [buildEmailData, headerValue, hf]
  · intro h
    have hf : msg.headers.find? (fun p => pyLower p.1 == "from") = none :=
      List.find?_eq_none.mpr (fun x hx => by simpa using h x hx)
    simp [buildEmailData, headerValue, hf]
  · intro h
    simp [buildEmailData, h]
  · exact fun env e => classify_cases env e

/-- C8 witness: placeholders computed for a concrete message with no
headers and no snippet. -/
theorem classification_total_with_placeholders_witness :
    (buildEmailData "m" ⟨[], none⟩).subject = "N/A" ∧
    (buildEmailData "m" ⟨[], none⟩).sender = "N/A" ∧
    (buildEmailData "m" ⟨[], none⟩).snippet = "" :=
  ⟨(classification_total_with_placeholders "m" ⟨[], none⟩).1 (by simp),
   (classification_total_with_placeholders "m" ⟨[], none⟩).2.1 (by simp),
   (classification_total_with_placeholders "m" ⟨[], none⟩).2.2.1 rfl⟩

/-- C5: when classification yields None (unparseable or out-of-taxonomy
response, or a failing oracle call), the message step leaves the Decision
Store and the saved set unchanged, performs no archive mutation, and
increments the undecided count by exactly one. -/
theorem undecided_leaves_message_untouched (env : Env) (s : RunState)
    (msgId : String) (rawMsg : RawMsg)
    (hsk : msgId ∉ s.savedInboxIds)
    (hf : env.fetch msgId = Except.ok rawMsg)
    (hcl : classify_email_with_gemini env (buildEmailData msgId rawMsg) = none)
    (hcnt : s.archived + s.inboxCount ≤ s.processed) :
    ∃ s1, processMsg env s msgId = Except.ok s1 ∧
      s1.store = s.store ∧ s1.savedInboxIds = s.savedInboxIds ∧
      s1.archivedIds = s.archivedIds ∧
      s1.archived = s.archived ∧ s1.inboxCount = s.inboxCount ∧
      undecided s1 = undecided s + 1 := by
  have hstep : processMsg env s msgId = Except.ok { s with seenIds := s.seenIds ++ [msgId], fetchedIds := s.fetchedIds ++ [msgId], oracleCalls := s.oracleCalls ++ [msgId], processed := s.processed + 1 } := by
    simp [processMsg, hsk, hf, hcl]
  exact ⟨_, hstep, rfl, rfl, rfl, rfl, rfl, by simp only [undecided]; omega⟩

/-- A raising oracle call makes classify_email_with_gemini return None. -/
theorem classify_oracle_error (env : Env) (e : EmailData)
    (ho : env.oracle e = Except.error ()) :
    classify_email_with_gemini env e = none := by
  cases hk : env.geminiApiKey <;> simp [classify_email_with_gemini, hk, ho]

/-- C2 counterexample: the fetch for listed id a raises while id b follows
on the same page.  The run aborts at once: a is not recorded as undecided
(processed stays 0) and b is never reached, contradicting the claim that a
single-message failure never aborts the run. -/
theorem message_error_aborts_run_cex :
    (process_inbox fetchFailEnv [Except.ok ⟨["a", "b"], none⟩] []).processed = 0 ∧
    "b" ∉ (process_inbox fetchFailEnv [Except.ok ⟨["a", "b"], none⟩] []).seenIds ∧
    (process_inbox fetchFailEnv [Except.ok ⟨["a", "b"], none⟩] []).oracleCalls = [] := by
  decide

/-- C2 (amended): a failing classify call never aborts the run — the
message is recorded as undecided and the loop continues with the next
identifier on the page; but a failing fetch or a failing archive mutation
raises past the for-loop and breaks the pagination loop: the run ends with
all progress made so far preserved and the remaining identifiers
unprocessed.  A message whose fetch failed is not recorded at all (the
processed count is untouched, so the derived undecided count excludes it);
a message whose archive mutation failed was already counted as processed
before the mutation raised and is neither archived nor retained, so it
does appear in the derived undecided count. -/
theorem message_error_policy :
    (∀ (env : Env) (s : RunState) (msgId : String) (rest : List String) (rawMsg : RawMsg),
      msgId ∉ s.savedInboxIds →
      env.fetch msgId = Except.ok rawMsg →
      env.oracle (buildEmailData msgId rawMsg) = Except.error () →
      ∃ s1, processMsg env s msgId = Except.ok s1 ∧
        s1.processed = s.processed + 1 ∧ s1.archived = s.archived ∧
        s1.inboxCount = s.inboxCount ∧ s1.store = s.store ∧
        processPage env s (msgId :: rest) = processPage env s1 rest) ∧
    (∀ (env : Env) (s : RunState) (msgId : String) (rest : List String)
        (tok : Option String) (morePages : List (Except Unit Page)),
      msgId ∉ s.savedInboxIds →
      env.fetch msgId = Except.error () →
      runPages env s (Except.ok ⟨msgId :: rest, tok⟩ :: morePages) =
        { s with seenIds := s.seenIds ++ [msgId], fetchedIds := s.fetchedIds ++ [msgId] } ∧
      undecided (runPages env s (Except.ok ⟨msgId :: rest, tok⟩ :: morePages)) =
        undecided s) ∧
    (∀ (env : Env) (s : RunState) (msgId : String) (rest : List String)
        (tok : Option String) (morePages : List (Except Unit Page)) (rawMsg : RawMsg),
      msgId ∉ s.savedInboxIds →
      env.fetch msgId = Except.ok rawMsg →
      classify_email_with_gemini env (buildEmailData msgId rawMsg) = some "[ARCHIVE]" →
      env.archiveOk msgId = false →
      s.archived + s.inboxCount ≤ s.processed →
      runPages env s (Except.ok ⟨msgId :: rest, tok⟩ :: morePages) =
        { s with seenIds := s.seenIds ++ [msgId], fetchedIds := s.fetchedIds ++ [msgId],
                 oracleCalls := s.oracleCalls ++ [msgId], processed := s.processed + 1 } ∧
      undecided (runPages env s (Except.ok ⟨msgId :: rest, tok⟩ :: morePages)) =
        undecided s + 1) := by
  refine ⟨?_, ?_, ?_⟩
  · intro env s msgId rest rawMsg hsk hf ho
    have hcl : classify_email_with_gemini env (buildEmailData msgId rawMsg) = none :=
      classify_oracle_error env _ ho
    have hstep : processMsg env s msgId = Except.ok { s with seenIds := s.seenIds ++ [msgId], fetchedIds := s.fetchedIds ++ [msgId], oracleCalls := s.oracleCalls ++ [msgId], processed := s.processed + 1 } := by
      simp [processMsg, hsk, hf, hcl]
    exact ⟨_, hstep, rfl, rfl, rfl, rfl, by rw [processPage, hstep]⟩
  · intro env s msgId rest tok morePages hsk hf
    have hstep : processMsg env s msgId = Except.error { s with seenIds := s.seenIds ++ [msgId], fetchedIds := s.fetchedIds ++ [msgId] } := by
      simp [processMsg, hsk, hf]
    have hrun : runPages env s (Except.ok ⟨msgId :: rest, tok⟩ :: morePages) =
        { s with seenIds := s.seenIds ++ [msgId], fetchedIds := s.fetchedIds ++ [msgId] } := by
      simp [runPages, processPage, hstep]
    exact ⟨hrun, by rw [hrun]; rfl⟩
  · intro env s msgId rest tok morePages rawMsg hsk hf hcl hko hcnt
    have hstep : processMsg env s msgId = Except.error { s with seenIds := s.seenIds ++ [msgId], fetchedIds := s.fetchedIds ++ [msgId], oracleCalls := s.oracleCalls ++ [msgId], processed := s.processed + 1 } := by
      simp [processMsg, hsk, hf, hcl, hko]
    have hrun : runPages env s (Except.ok ⟨msgId :: rest, tok⟩ :: morePages) =
        { s with seenIds := s.seenIds ++ [msgId], fetchedIds := s.fetchedIds ++ [msgId],
                 oracleCalls := s.oracleCalls ++ [msgId], processed := s.processed + 1 } := by
      simp [runPages, processPage, hstep]
    refine ⟨hrun, ?_⟩
    rw [hrun]
    simp only [undecided]
    omega

/-- C2 witness: the three clauses of the error policy evaluated on concrete
environments — an oracle failure continues the page, a fetch failure aborts
the run with the undecided count untouched, and an archive failure aborts
the run with the undecided count grown by one. -/
theorem message_error_policy_witness :
    (∃ s1, processMsg oracleFailEnv (initState []) "m" = Except.ok s1 ∧
      s1.processed = (initState []).processed + 1 ∧
      s1.archived = (initState []).archived ∧
      s1.inboxCount = (initState []).inboxCount ∧
      s1.store = (initState []).store ∧
      processPage oracleFailEnv (initState []) ["m", "n"] = processPage oracleFailEnv s1 ["n"]) ∧
    (runPages fetchFailEnv (initState []) [Except.ok ⟨["a", "b"], none⟩] =
      { initState [] with seenIds := [] ++ ["a"], fetchedIds := [] ++ ["a"] } ∧
     undecided (runPages fetchFailEnv (initState []) [Except.ok ⟨["a", "b"], none⟩]) =
      undecided (initState [])) ∧
    (runPages archiveFailEnv (initState []) [Except.ok ⟨["m", "n"], none⟩] =
      { initState [] with seenIds := [] ++ ["m"], fetchedIds := [] ++ ["m"],
                          oracleCalls := [] ++ ["m"], processed := 0 + 1 } ∧
     undecided (runPages archiveFailEnv (initState []) [Except.ok ⟨["m", "n"], none⟩]) =
      undecided (initState []) + 1) :=
  ⟨message_error_policy.1 oracleFailEnv (initState []) "m" ["n"] sampleRaw
      (by decide) rfl rfl,
   message_error_policy.2.1 fetchFailEnv (initState []) "a" ["b"] none []
      (by decide) rfl,
   message_error_policy.2.2 archiveFailEnv (initState []) "m" ["n"] none [] sampleRaw
      (by decide) rfl (by decide) rfl (by decide)⟩

/-- C9 counterexample: the first listing response is an empty page carrying
a cursor and the second page holds id x.  The claim says the loop advances
on the cursor, but the code breaks on any empty page: x is never seen. -/
theorem pagination_empty_page_cex :
    (process_inbox inboxEnv [Except.ok ⟨[], some "t"⟩, Except.ok ⟨["x"], none⟩] []).seenIds = [] ∧
    (process_inbox inboxEnv [Except.ok ⟨[], some "t"⟩, Except.ok ⟨["x"], none⟩] []).processed = 0 := by
  decide

/-- C9 (amended): an empty page terminates the pagination loop regardless
of any cursor; after a non-empty page processed without an exception, the
absence of a next cursor terminates the loop; a non-empty page processed
without an exception whose response carries a cursor advances the loop to
the next listing response. -/
theorem pagination_termination :
    (∀ (env : Env) (s : RunState) (p : Page) (rest : List (Except Unit Page)),
      p.messages = [] → runPages env s (Except.ok p :: rest) = s) ∧
    (∀ (env : Env) (s : RunState) (p : Page) (rest : List (Except Unit Page)) (s1 : RunState),
      p.messages ≠ [] → processPage env s p.messages = Except.ok s1 →
      p.nextPageToken = none → runPages env s (Except.ok p :: rest) = s1) ∧
    (∀ (env : Env) (s : RunState) (p : Page) (rest : List (Except Unit Page))
        (s1 : RunState) (tok : String),
      p.messages ≠ [] → processPage env s p.messages = Except.ok s1 →
      p.nextPageToken = some tok →
      runPages env s (Except.ok p :: rest) = runPages env s1 rest) := by
  refine ⟨?_, ?_, ?_⟩
  · intro env s p rest h
    rw [runPages]
    simp [List.isEmpty_iff, h]
  · intro env s p rest s1 h hpage htok
    simp [runPages, List.isEmpty_iff, h, hpage, htok]
  · intro env s p rest s1 tok h hpage htok
    simp [runPages, List.isEmpty_iff, h, hpage, htok]

/-- C9 witness: the three termination clauses evaluated on concrete pages:
an empty page with a cursor stops, a processed page without cursor stops,
and a processed page with a cursor advances. -/
theorem pagination_termination_witness :
    runPages inboxEnv (initState []) [Except.ok ⟨[], some "t"⟩, Except.ok ⟨["x"], none⟩] =
      initState [] ∧
    runPages inboxEnv (initState []) [Except.ok ⟨["m"], none⟩] =
      ⟨["m"], ["m"], 1, 0, 1, ["m"], ["m"], ["m"], []⟩ ∧
    runPages inboxEnv (initState []) [Except.ok ⟨["m"], some "t"⟩] =
      runPages inboxEnv ⟨["m"], ["m"], 1, 0, 1, ["m"], ["m"], ["m"], []⟩ [] :=
  ⟨pagination_termination.1 inboxEnv (initState []) ⟨[], some "t"⟩ _ rfl,
   pagination_termination.2.1 inboxEnv (initState []) ⟨["m"], none⟩ [] _
      (by decide) rfl rfl,
   pagination_termination.2.2 inboxEnv (initState []) ⟨["m"], some "t"⟩ [] _ "t"
      (by decide) rfl rfl⟩

/-- C5 witness: the undecided step evaluated on a concrete state and an
environment whose oracle answers out of taxonomy. -/
theorem undecided_leaves_message_untouched_witness :
    ∃ s1, processMsg
        { fetch := fun _ => Except.ok sampleRaw
          oracle := fun _ => Except.ok "nonsense"
          archiveOk := fun _ => true
          geminiApiKey := some "key" } (initState []) "m" = Except.ok s1 ∧
      s1.store = (initState []).store ∧
      s1.savedInboxIds = (initState []).savedInboxIds ∧
      s1.archivedIds = (initState []).archivedIds ∧
      s1.archived = (initState []).archived ∧
      s1.inboxCount = (initState []).inboxCount ∧
      undecided s1 = undecided (initState []) + 1 :=
  undecided_leaves_message_untouched _ (initState []) "m" sampleRaw
    (by decide) rfl (by decide) (by decide)

/-- Exhaustive case analysis of one message iteration: skip, fetch failure,
archive success, archive-mutation failure, inbox decision, or no decision. -/
theorem processMsg_enum (env : Env) (s : RunState) (msgId : String) :
    (msgId ∈ s.savedInboxIds ∧
      processMsg env s msgId = Except.ok { s with seenIds := s.seenIds ++ [msgId] }) ∨
    (msgId ∉ s.savedInboxIds ∧ env.fetch msgId = Except.error () ∧
      processMsg env s msgId = Except.error { s with seenIds := s.seenIds ++ [msgId], fetchedIds := s.fetchedIds ++ [msgId] }) ∨
    (msgId ∉ s.savedInboxIds ∧ ∃ rawMsg, env.fetch msgId = Except.ok rawMsg ∧
      classify_email_with_gemini env (buildEmailData msgId rawMsg) = some "[ARCHIVE]" ∧
      env.archiveOk msgId = true ∧
      processMsg env s msgId = Except.ok { s with seenIds := s.seenIds ++ [msgId], fetchedIds := s.fetchedIds ++ [msgId], oracleCalls := s.oracleCalls ++ [msgId], processed := s.processed + 1, archived := s.archived + 1, archivedIds := s.archivedIds ++ [msgId] }) ∨
    (msgId ∉ s.savedInboxIds ∧ ∃ rawMsg, env.fetch msgId = Except.ok rawMsg ∧
      classify_email_with_gemini env (buildEmailData msgId rawMsg) = some "[ARCHIVE]" ∧
      env.archiveOk msgId = false ∧
      processMsg env s msgId = Except.error { s with seenIds := s.seenIds ++ [msgId], fetchedIds := s.fetchedIds ++ [msgId], oracleCalls := s.oracleCalls ++ [msgId], processed := s.processed + 1 }) ∨
    (msgId ∉ s.savedInboxIds ∧ ∃ rawMsg, env.fetch msgId = Except.ok rawMsg ∧
      classify_email_with_gemini env (buildEmailData msgId rawMsg) = some "[INBOX]" ∧
      processMsg env s msgId = Except.ok { s with seenIds := s.seenIds ++ [msgId], fetchedIds := s.fetchedIds ++ [msgId], oracleCalls := s.oracleCalls ++ [msgId], processed := s.processed + 1, store := s.store ++ [msgId], savedInboxIds := msgId :: s.savedInboxIds, inboxCount := s.inboxCount + 1 }) ∨
    (msgId ∉ s.savedInboxIds ∧ ∃ rawMsg, env.fetch msgId = Except.ok rawMsg ∧
      classify_email_with_gemini env (buildEmailData msgId rawMsg) ≠ some "[ARCHIVE]" ∧
      classify_email_with_gemini env (buildEmailData msgId rawMsg) ≠ some "[INBOX]" ∧
      processMsg env s msgId = Except.ok { s with seenIds := s.seenIds ++ [msgId], fetchedIds := s.fetchedIds ++ [msgId], oracleCalls := s.oracleCalls ++ [msgId], processed := s.processed + 1 }) := by
  by_cases hsk : msgId ∈ s.savedInboxIds
  · exact Or.inl ⟨hsk, processMsg_skip env s msgId hsk⟩
  · cases hf : env.fetch msgId with
    | error u =>
      cases u
      exact Or.inr (Or.inl ⟨hsk, rfl, by simp [processMsg, hsk, hf]⟩)
    | ok rawMsg =>
      by_cases hA : classify_email_with_gemini env (buildEmailData msgId rawMsg) = some "[ARCHIVE]"
      · cases hok : env.archiveOk msgId with
        | true =>
          refine Or.inr (Or.inr (Or.inl ⟨hsk, rawMsg, rfl, hA, rfl, ?_⟩))
          simp [processMsg, hsk, hf, hA, hok]
        | false =>
          refine Or.inr (Or.inr (Or.inr (Or.inl ⟨hsk, rawMsg, rfl, hA, rfl, ?_⟩)))
          simp [processMsg, hsk, hf, hA, hok]
      · by_cases hI : classify_email_with_gemini env (buildEmailData msgId rawMsg) = some "[INBOX]"
        · refine Or.inr (Or.inr (Or.inr (Or.inr (Or.inl ⟨hsk, rawMsg, rfl, hI, ?_⟩))))
          simp [processMsg, hsk, hf, hA, hI]
        · refine Or.inr (Or.inr (Or.inr (Or.inr (Or.inr ⟨hsk, rawMsg, rfl, hA, hI, ?_⟩))))
          simp [processMsg, hsk, hf, hA, hI]

/-- An element missing from a list and different from b is missing from the
list extended with b. -/
theorem not_mem_append_singleton {α : Type} {a b : α} {l : List α}
    (h1 : a ∉ l) (h2 : a ≠ b) : a ∉ l ++ [b] := by
  intro hmem
  rcases List.mem_append.mp hmem with h | h
  · exact h1 h
  · exact h2 (List.mem_singleton.mp h)

/-- One message iteration never fetches or classifies an id that is in the
saved set, and keeps it in the saved set and the store. -/
theorem processMsg_saved_invariant (env : Env) (s : RunState) (msgId id : String)
    (h1 : id ∈ s.savedInboxIds) (h2 : id ∉ s.fetchedIds)
    (h3 : id ∉ s.oracleCalls) (h4 : id ∈ s.store) :
    id ∈ (resState (processMsg env s msgId)).savedInboxIds ∧
    id ∉ (resState (processMsg env s msgId)).fetchedIds ∧
    id ∉ (resState (processMsg env s msgId)).oracleCalls ∧
    id ∈ (resState (processMsg env s msgId)).store := by
  rcases processMsg_enum env s msgId with
    ⟨hsk, heq⟩ | ⟨hsk, hfe, heq⟩ | ⟨hsk, rawMsg, hf, hA, hok, heq⟩ |
    ⟨hsk, rawMsg, hf, hA, hok, heq⟩ | ⟨hsk, rawMsg, hf, hI, heq⟩ |
    ⟨hsk, rawMsg, hf, hA, hI, heq⟩
  · rw [heq]; exact ⟨h1, h2, h3, h4⟩
  all_goals {
    have hne : id ≠ msgId := fun he => hsk (he ▸ h1)
    rw [heq]
    exact ⟨by first | exact h1 | exact List.mem_cons_of_mem msgId h1,
           not_mem_append_singleton h2 hne,
           by first | exact h3 | exact not_mem_append_singleton h3 hne,
           by first | exact h4 | exact List.mem_append_left _ h4⟩ }

/-- The saved-id invariant propagated through one page of messages. -/
theorem processPage_saved_invariant (env : Env) (msgs : List String) (s : RunState)
    (id : String)
    (h1 : id ∈ s.savedInboxIds) (h2 : id ∉ s.fetchedIds)
    (h3 : id ∉ s.oracleCalls) (h4 : id ∈ s.store) :
    id ∈ (resState (processPage env s msgs)).savedInboxIds ∧
    id ∉ (resState (processPage env s msgs)).fetchedIds ∧
    id ∉ (resState (processPage env s msgs)).oracleCalls ∧
    id ∈ (resState (processPage env s msgs)).store := by
  induction msgs generalizing s with
  | nil => exact ⟨h1, h2, h3, h4⟩
  | cons m rest ih =>
    have hstep := processMsg_saved_invariant env s m id h1 h2 h3 h4
    simp only [processPage]
    cases hm : processMsg env s m with
    | error s1 =>
      rw [hm] at hstep
      exact hstep
    | ok s1 =>
      rw [hm] at hstep
      exact ih s1 hstep.1 hstep.2.1 hstep.2.2.1 hstep.2.2.2

/-- The saved-id invariant propagated through the whole pagination loop. -/
theorem runPages_saved_invariant (env : Env) (pages : List (Except Unit Page))
    (s : RunState) (id : String)
    (h1 : id ∈ s.savedInboxIds) (h2 : id ∉ s.fetchedIds)
    (h3 : id ∉ s.oracleCalls) (h4 : id ∈ s.store) :
    id ∈ (runPages env s pages).savedInboxIds ∧
    id ∉ (runPages env s pages).fetchedIds ∧
    id ∉ (runPages env s pages).oracleCalls ∧
    id ∈ (runPages env s pages).store := by
  induction pages generalizing s with
  | nil => exact ⟨h1, h2, h3, h4⟩
  | cons pg rest ih =>
    cases pg with
    | error u => exact ⟨h1, h2, h3, h4⟩
    | ok p =>
      simp only [runPages]
      by_cases he : p.messages.isEmpty
      · simp only [he, if_true]
        exact ⟨h1, h2, h3, h4⟩
      · simp only [he, if_false]
        have hpage := processPage_saved_invariant env p.messages s id h1 h2 h3 h4
        cases hp : processPage env s p.messages with
        | error s1 =>
          rw [hp] at hpage
          exact hpage
        | ok s1 =>
          rw [hp] at hpage
          cases p.nextPageToken with
          | none => exact hpage
          | some tok => exact ih s1 hpage.1 hpage.2.1 hpage.2.2.1 hpage.2.2.2

/-- C1: an id present in the Decision Store at the start of a run is
skipped before any fetch or classification — it is never fetched and never
classified during that run — and it stays in the store, so the same holds
for any subsequent run started from the resulting store. -/
theorem saved_id_never_reclassified (env1 env2 : Env)
    (pages1 pages2 : List (Except Unit Page)) (store0 : List String)
    (msgId : String) (h : msgId ∈ store0) :
    msgId ∉ (process_inbox env1 pages1 store0).fetchedIds ∧
    msgId ∉ (process_inbox env1 pages1 store0).oracleCalls ∧
    msgId ∈ (process_inbox env1 pages1 store0).store ∧
    msgId ∉ (process_inbox env2 pages2 (process_inbox env1 pages1 store0).store).fetchedIds ∧
    msgId ∉ (process_inbox env2 pages2 (process_inbox env1 pages1 store0).store).oracleCalls := by
  have r1 := runPages_saved_invariant env1 pages1 (initState store0) msgId
    h (List.not_mem_nil msgId) (List.not_mem_nil msgId) h
  have r2 := runPages_saved_invariant env2 pages2
    (initState (process_inbox env1 pages1 store0).store) msgId
    r1.2.2.2 (List.not_mem_nil msgId) (List.not_mem_nil msgId) r1.2.2.2
  exact ⟨r1.2.1, r1.2.2.1, r1.2.2.2, r2.2.1, r2.2.2.1⟩

/-- C1 witness: id a sits in the store; two concrete runs over a page
listing a (with an oracle that would archive everything) never fetch or
classify it. -/
theorem saved_id_never_reclassified_witness :
    "a" ∉ (process_inbox inboxEnv [Except.ok ⟨["a"], some "t"⟩] ["a"]).fetchedIds ∧
    "a" ∉ (process_inbox inboxEnv [Except.ok ⟨["a"], some "t"⟩] ["a"]).oracleCalls ∧
    "a" ∈ (process_inbox inboxEnv [Except.ok ⟨["a"], some "t"⟩] ["a"]).store ∧
    "a" ∉ (process_inbox mixedEnv [Except.ok ⟨["a", "b"], none⟩]
      (process_inbox inboxEnv [Except.ok ⟨["a"], some "t"⟩] ["a"]).store).fetchedIds ∧
    "a" ∉ (process_inbox mixedEnv [Except.ok ⟨["a", "b"], none⟩]
      (process_inbox inboxEnv [Except.ok ⟨["a"], some "t"⟩] ["a"]).store).oracleCalls :=
  saved_id_never_reclassified inboxEnv mixedEnv [Except.ok ⟨["a"], some "t"⟩]
    [Except.ok ⟨["a", "b"], none⟩] ["a"] "a" (by decide)

/-- One message iteration preserves: the store has no duplicates and every
stored id is in the saved set.  An append happens only in the inbox branch,
where the guard ensures the id is not yet saved, hence not yet stored. -/
theorem processMsg_store_nodup (env : Env) (s : RunState) (msgId : String)
    (hnd : s.store.Nodup) (hsub : ∀ x ∈ s.store, x ∈ s.savedInboxIds) :
    (resState (processMsg env s msgId)).store.Nodup ∧
    ∀ x ∈ (resState (processMsg env s msgId)).store,
      x ∈ (resState (processMsg env s msgId)).savedInboxIds := by
  rcases processMsg_enum env s msgId with
    ⟨hsk, heq⟩ | ⟨hsk, hfe, heq⟩ | ⟨hsk, rawMsg, hf, hA, hok, heq⟩ |
    ⟨hsk, rawMsg, hf, hA, hok, heq⟩ | ⟨hsk, rawMsg, hf, hI, heq⟩ |
    ⟨hsk, rawMsg, hf, hA, hI, heq⟩
  · rw [heq]; exact ⟨hnd, hsub⟩
  · rw [heq]; exact ⟨hnd, hsub⟩
  · rw [heq]; exact ⟨hnd, hsub⟩
  · rw [heq]; exact ⟨hnd, hsub⟩
  · rw [heq]
    constructor
    · refine List.Nodup.append hnd (List.nodup_singleton msgId) ?_
      intro a ha hb
      rw [List.mem_singleton] at hb
      subst hb
      exact hsk (hsub a ha)
    · intro x hx
      rcases List.mem_append.mp hx with hx | hx
      · exact List.mem_cons_of_mem msgId (hsub x hx)
      · rw [List.mem_singleton] at hx
        subst hx
        exact List.mem_cons_self x s.savedInboxIds
  · rw [heq]; exact ⟨hnd, hsub⟩

/-- The no-duplicates invariant propagated through one page. -/
theorem processPage_store_nodup (env : Env) (msgs : List String) (s : RunState)
    (hnd : s.store.Nodup) (hsub : ∀ x ∈ s.store, x ∈ s.savedInboxIds) :
    (resState (processPage env s msgs)).store.Nodup ∧
    ∀ x ∈ (resState (processPage env s msgs)).store,
      x ∈ (resState (processPage env s msgs)).savedInboxIds := by
  induction msgs generalizing s with
  | nil => exact ⟨hnd, hsub⟩
  | cons m rest ih =>
    have hstep := processMsg_store_nodup env s m hnd hsub
    simp only [processPage]
    cases hm : processMsg env s m with
    | error s1 =>
      rw [hm] at hstep
      exact hstep
    | ok s1 =>
      rw [hm] at hstep
      exact ih s1 hstep.1 hstep.2

/-- The no-duplicates invariant propagated through the pagination loop. -/
theorem runPages_store_nodup (env : Env) (pages : List (Except Unit Page))
    (s : RunState)
    (hnd : s.store.Nodup) (hsub : ∀ x ∈ s.store, x ∈ s.savedInboxIds) :
    (runPages env s pages).store.Nodup ∧
    ∀ x ∈ (runPages env s pages).store, x ∈ (runPages env s pages).savedInboxIds := by
  induction pages generalizing s with
  | nil => exact ⟨hnd, hsub⟩
  | cons pg rest ih =>
    cases pg with
    | error u => exact ⟨hnd, hsub⟩
    | ok p =>
      simp only [runPages]
      by_cases he : p.messages.isEmpty
      · simp only [he, if_true]
        exact ⟨hnd, hsub⟩
      · simp only [he, if_false]
        have hpage := processPage_store_nodup env p.messages s hnd hsub
        cases hp : processPage env s p.messages with
        | error s1 =>
          rw [hp] at hpage
          exact hpage
        | ok s1 =>
          rw [hp] at hpage
          cases p.nextPageToken with
          | none => exact hpage
          | some tok => exact ih s1 hpage.1 hpage.2

/-- C7: starting from a Decision Store with no duplicate identifiers, a
whole pipeline run preserves the invariant that each identifier appears at
most once in the store: an append happens only for ids absent from the
in-memory set, which contains every stored id and receives every appended
id. -/
theorem store_at_most_once (env : Env) (pages : List (Except Unit Page))
    (store0 : List String) (h : store0.Nodup) :
    (process_inbox env pages store0).store.Nodup :=
  (runPages_store_nodup env pages (initState store0) h (fun _ hx => hx)).1

/-- C7 witness: a concrete run over three fresh ids (one archived, one
retained, one undecided) started from a one-id store keeps the store free
of duplicates. -/
theorem store_at_most_once_witness :
    (process_inbox mixedEnv [Except.ok ⟨["a", "b", "c"], none⟩] ["z"]).store.Nodup :=
  store_at_most_once mixedEnv [Except.ok ⟨["a", "b", "c"], none⟩] ["z"] (by decide)

/-- The listed ids of a script headed by a successful page. -/
theorem listedIds_ok_cons (p : Page) (rest : List (Except Unit Page)) :
    listedIds (Except.ok p :: rest) = p.messages ++ listedIds rest :=
  rfl

/-- A message that is already saved or whose decision would be None leaves
the archived count, the retained count and the saved set unchanged. -/
theorem processMsg_no_action (env : Env) (s : RunState) (msgId : String)
    (h : msgId ∈ s.savedInboxIds ∨ decisionOf env msgId = none) :
    (resState (processMsg env s msgId)).archived = s.archived ∧
    (resState (processMsg env s msgId)).inboxCount = s.inboxCount ∧
    (resState (processMsg env s msgId)).savedInboxIds = s.savedInboxIds := by
  rcases processMsg_enum env s msgId with
    ⟨hsk, heq⟩ | ⟨hsk, hfe, heq⟩ | ⟨hsk, rawMsg, hf, hA, hok, heq⟩ |
    ⟨hsk, rawMsg, hf, hA, hok, heq⟩ | ⟨hsk, rawMsg, hf, hI, heq⟩ |
    ⟨hsk, rawMsg, hf, hA, hI, heq⟩
  · rw [heq]; exact ⟨rfl, rfl, rfl⟩
  · rw [heq]; exact ⟨rfl, rfl, rfl⟩
  · rcases h with h | h
    · exact absurd h hsk
    · have hd : decisionOf env msgId = classify_email_with_gemini env (buildEmailData msgId rawMsg) := by
        unfold decisionOf; rw [hf]
      rw [hd, hA] at h
      exact Option.noConfusion h
  · rcases h with h | h
    · exact absurd h hsk
    · have hd : decisionOf env msgId = classify_email_with_gemini env (buildEmailData msgId rawMsg) := by
        unfold decisionOf; rw [hf]
      rw [hd, hA] at h
      exact Option.noConfusion h
  · rcases h with h | h
    · exact absurd h hsk
    · have hd : decisionOf env msgId = classify_email_with_gemini env (buildEmailData msgId rawMsg) := by
        unfold decisionOf; rw [hf]
      rw [hd, hI] at h
      exact Option.noConfusion h
  · rw [heq]; exact ⟨rfl, rfl, rfl⟩

/-- The no-action property propagated through one page. -/
theorem processPage_no_action (env : Env) (msgs : List String) (s : RunState)
    (h : ∀ id ∈ msgs, id ∈ s.savedInboxIds ∨ decisionOf env id = none) :
    (resState (processPage env s msgs)).archived = s.archived ∧
    (resState (processPage env s msgs)).inboxCount = s.inboxCount ∧
    (resState (processPage env s msgs)).savedInboxIds = s.savedInboxIds := by
  induction msgs generalizing s with
  | nil => exact ⟨rfl, rfl, rfl⟩
  | cons m rest ih =>
    have hstep := processMsg_no_action env s m (h m (List.mem_cons_self m rest))
    simp only [processPage]
    cases hm : processMsg env s m with
    | error s1 =>
      rw [hm] at hstep
      exact hstep
    | ok s1 =>
      rw [hm] at hstep
      have hsv : s1.savedInboxIds = s.savedInboxIds := hstep.2.2
      have h1 : ∀ id ∈ rest, id ∈ s1.savedInboxIds ∨ decisionOf env id = none := by
        intro id hid
        rw [hsv]
        exact h id (List.mem_cons_of_mem m hid)
      have hr := ih s1 h1
      exact ⟨hr.1.trans hstep.1, hr.2.1.trans hstep.2.1, hr.2.2.trans hstep.2.2⟩

/-- The no-action property propagated through the pagination loop. -/
theorem runPages_no_action (env : Env) (pages : List (Except Unit Page))
    (s : RunState)
    (h : ∀ id ∈ listedIds pages, id ∈ s.savedInboxIds ∨ decisionOf env id = none) :
    (runPages env s pages).archived = s.archived ∧
    (runPages env s pages).inboxCount = s.inboxCount ∧
    (runPages env s pages).savedInboxIds = s.savedInboxIds := by
  induction pages generalizing s with
  | nil => exact ⟨rfl, rfl, rfl⟩
  | cons pg rest ih =>
    cases pg with
    | error u => exact ⟨rfl, rfl, rfl⟩
    | ok p =>
      simp only [runPages]
      by_cases he : p.messages.isEmpty
      · simp [he]
      · simp only [he, if_false]
        have hmem : ∀ id ∈ p.messages, id ∈ s.savedInboxIds ∨ decisionOf env id = none := by
          intro id hid
          exact h id (by rw [listedIds_ok_cons]; exact List.mem_append_left _ hid)
        have hpage := processPage_no_action env p.messages s hmem
        cases hp : processPage env s p.messages with
        | error s1 =>
          rw [hp] at hpage
          exact hpage
        | ok s1 =>
          rw [hp] at hpage
          cases p.nextPageToken with
          | none => exact hpage
          | some tok =>
            have hsv : s1.savedInboxIds = s.savedInboxIds := hpage.2.2
            have h1 : ∀ id ∈ listedIds rest, id ∈ s1.savedInboxIds ∨ decisionOf env id = none := by
              intro id hid
              rw [hsv]
              exact h id (by rw [listedIds_ok_cons]; exact List.mem_append_right _ hid)
            have hr := ih s1 h1
            exact ⟨hr.1.trans hpage.1, hr.2.1.trans hpage.2.1, hr.2.2.trans hpage.2.2⟩

/-- When every archive mutation succeeds, one message iteration preserves:
the saved set and the store have the same members, and every iterated id is
stored, archived, or has decision None. -/
theorem processMsg_coverage (env : Env) (s : RunState) (msgId : String)
    (hArch : ∀ i, env.archiveOk i = true)
    (hiff : ∀ x, x ∈ s.savedInboxIds ↔ x ∈ s.store)
    (hcov : ∀ id ∈ s.seenIds,
      id ∈ s.store ∨ id ∈ s.archivedIds ∨ decisionOf env id = none) :
    (∀ x, x ∈ (resState (processMsg env s msgId)).savedInboxIds ↔
      x ∈ (resState (processMsg env s msgId)).store) ∧
    ∀ id ∈ (resState (processMsg env s msgId)).seenIds,
      id ∈ (resState (processMsg env s msgId)).store ∨
      id ∈ (resState (processMsg env s msgId)).archivedIds ∨
      decisionOf env id = none := by
  rcases processMsg_enum env s msgId with
    ⟨hsk, heq⟩ | ⟨hsk, hfe, heq⟩ | ⟨hsk, rawMsg, hf, hA, hok, heq⟩ |
    ⟨hsk, rawMsg, hf, hA, hok, heq⟩ | ⟨hsk, rawMsg, hf, hI, heq⟩ |
    ⟨hsk, rawMsg, hf, hA, hI, heq⟩
  · rw [heq]
    refine ⟨hiff, ?_⟩
    intro id hid
    rcases List.mem_append.mp hid with hid | hid
    · exact hcov id hid
    · rw [List.mem_singleton] at hid
      subst hid
      exact Or.inl ((hiff id).mp hsk)
  · rw [heq]
    refine ⟨hiff, ?_⟩
    intro id hid
    rcases List.mem_append.mp hid with hid | hid
    · exact hcov id hid
    · rw [List.mem_singleton] at hid
      subst hid
      refine Or.inr (Or.inr ?_)
      unfold decisionOf
      rw [hfe]
  · rw [heq]
    refine ⟨hiff, ?_⟩
    intro id hid
    rcases List.mem_append.mp hid with hid | hid
    · rcases hcov id hid with h1 | h1 | h1
      · exact Or.inl h1
      · exact Or.inr (Or.inl (List.mem_append_left _ h1))
      · exact Or.inr (Or.inr h1)
    · rw [List.mem_singleton] at hid
      subst hid
      exact Or.inr (Or.inl (List.mem_append_right _ (List.mem_singleton_self id)))
  · rw [hArch msgId] at hok
    exact Bool.noConfusion hok
  · rw [heq]
    constructor
    · intro x
      constructor
      · intro hx
        rcases List.mem_cons.mp hx with hx | hx
        · subst hx
          exact List.mem_append_right _ (List.mem_singleton_self x)
        · exact List.mem_append_left _ ((hiff x).mp hx)
      · intro hx
        rcases List.mem_append.mp hx with hx | hx
        · exact List.mem_cons_of_mem msgId ((hiff x).mpr hx)
        · rw [List.mem_singleton] at hx
          subst hx
          exact List.mem_cons_self x s.savedInboxIds
    · intro id hid
      rcases List.mem_append.mp hid with hid | hid
      · rcases hcov id hid with h1 | h1 | h1
        · exact Or.inl (List.mem_append_left _ h1)
        · exact Or.inr (Or.inl h1)
        · exact Or.inr (Or.inr h1)
      · rw [List.mem_singleton] at hid
        subst hid
        exact Or.inl (List.mem_append_right _ (List.mem_singleton_self id))
  · rw [heq]
    refine ⟨hiff, ?_⟩
    intro id hid
    rcases List.mem_append.mp hid with hid | hid
    · exact hcov id hid
    · rw [List.mem_singleton] at hid
      subst hid
      refine Or.inr (Or.inr ?_)
      rcases classify_cases env (buildEmailData id rawMsg) with hc | hc | hc
      · exact absurd hc hA
      · exact absurd hc hI
      · unfold decisionOf
        rw [hf]
        exact hc

/-- The coverage invariant propagated through one page. -/
theorem processPage_coverage (env : Env) (msgs : List String) (s : RunState)
    (hArch : ∀ i, env.archiveOk i = true)
    (hiff : ∀ x, x ∈ s.savedInboxIds ↔ x ∈ s.store)
    (hcov : ∀ id ∈ s.seenIds,
      id ∈ s.store ∨ id ∈ s.archivedIds ∨ decisionOf env id = none) :
    (∀ x, x ∈ (resState (processPage env s msgs)).savedInboxIds ↔
      x ∈ (resState (processPage env s msgs)).store) ∧
    ∀ id ∈ (resState (processPage env s msgs)).seenIds,
      id ∈ (resState (processPage env s msgs)).store ∨
      id ∈ (resState (processPage env s msgs)).archivedIds ∨
      decisionOf env id = none := by
  induction msgs generalizing s with
  | nil => exact ⟨hiff, hcov⟩
  | cons m rest ih =>
    have hstep := processMsg_coverage env s m hArch hiff hcov
    simp only [processPage]
    cases hm : processMsg env s m with
    | error s1 =>
      rw [hm] at hstep
      exact hstep
    | ok s1 =>
      rw [hm] at hstep
      exact ih s1 hstep.1 hstep.2

/-- The coverage invariant propagated through the pagination loop. -/
theorem runPages_coverage (env : Env) (pages : List (Except Unit Page))
    (s : RunState)
    (hArch : ∀ i, env.archiveOk i = true)
    (hiff : ∀ x, x ∈ s.savedInboxIds ↔ x ∈ s.store)
    (hcov : ∀ id ∈ s.seenIds,
      id ∈ s.store ∨ id ∈ s.archivedIds ∨ decisionOf env id = none) :
    (∀ x, x ∈ (runPages env s pages).savedInboxIds ↔
      x ∈ (runPages env s pages).store) ∧
    ∀ id ∈ (runPages env s pages).seenIds,
      id ∈ (runPages env s pages).store ∨
      id ∈ (runPages env s pages).archivedIds ∨
      decisionOf env id = none := by
  induction pages generalizing s with
  | nil => exact ⟨hiff, hcov⟩
  | cons pg rest ih =>
    cases pg with
    | error u => exact ⟨hiff, hcov⟩
    | ok p =>
      simp only [runPages]
      by_cases he : p.messages.isEmpty
      · simp only [he, if_true]
        exact ⟨hiff, hcov⟩
      · simp only [he, if_false]
        have hpage := processPage_coverage env p.messages s hArch hiff hcov
        cases hp : processPage env s p.messages with
        | error s1 =>
          rw [hp] at hpage
          exact hpage
        | ok s1 =>
          rw [hp] at hpage
          cases p.nextPageToken with
          | none => exact hpage
          | some tok => exact ih s1 hpage.1 hpage.2

/-- C4: with the mailbox unchanged between runs (every id listed in the
second run was reached by the first run and was not archived by it), oracle
responses unchanged (the same environment) and archive mutations
succeeding, a second run archives nothing and retains nothing: its archived
and retained counts are both 0. -/
theorem second_run_archives_and_retains_nothing (env : Env)
    (pages1 pages2 : List (Except Unit Page)) (store0 : List String)
    (hArch : ∀ i, env.archiveOk i = true)
    (hUnch : ∀ id ∈ listedIds pages2,
      id ∈ (process_inbox env pages1 store0).seenIds ∧
      id ∉ (process_inbox env pages1 store0).archivedIds) :
    (process_inbox env pages2 (process_inbox env pages1 store0).store).archived = 0 ∧
    (process_inbox env pages2 (process_inbox env pages1 store0).store).inboxCount = 0 := by
  have hcov := runPages_coverage env pages1 (initState store0) hArch
    (fun x => Iff.rfl)
    (fun id hid => absurd hid (List.not_mem_nil id))
  have h2 : ∀ id ∈ listedIds pages2,
      id ∈ (initState (process_inbox env pages1 store0).store).savedInboxIds ∨
      decisionOf env id = none := by
    intro id hid
    rcases hcov.2 id (hUnch id hid).1 with h1 | h1 | h1
    · exact Or.inl h1
    · exact absurd h1 (hUnch id hid).2
    · exact Or.inr h1
  have hr := runPages_no_action env pages2
    (initState (process_inbox env pages1 store0).store) h2
  exact ⟨hr.1, hr.2.1⟩

/-- C4 witness: run 1 over ids a (archived), b (retained), c (undecided);
run 2 lists b and c, which is the first listing minus the archived id; the
second run archives and retains nothing. -/
theorem second_run_archives_and_retains_nothing_witness :
    (process_inbox mixedEnv [Except.ok ⟨["b", "c"], none⟩]
      (process_inbox mixedEnv [Except.ok ⟨["a", "b", "c"], none⟩] []).store).archived = 0 ∧
    (process_inbox mixedEnv [Except.ok ⟨["b", "c"], none⟩]
      (process_inbox mixedEnv [Except.ok ⟨["a", "b", "c"], none⟩] []).store).inboxCount = 0 :=
  second_run_archives_and_retains_nothing mixedEnv
    [Except.ok ⟨["a", "b", "c"], none⟩] [Except.ok ⟨["b", "c"], none⟩] []
    (fun _ => rfl) (by decide)

/-- Empty content has no lines. -/
theorem fileLines_nil : fileLines [] = [] :=
  rfl

/-- Splitting a newline-headed content into lines. -/
theorem fileLines_cons_newline (rest : List Char) :
    fileLines ('\n' :: rest) = [] :: fileLines rest := by
  simp [fileLines]

/-- Splitting content headed by an ordinary character into lines. -/
theorem fileLines_cons (c : Char) (rest : List Char) (h : c ≠ '\n') :
    fileLines (c :: rest) =
      match fileLines rest with
      | [] => [[c]]
      | l :: ls => (c :: l) :: ls := by
  simp [fileLines, h]

/-- Nonempty content has at least one line. -/
theorem fileLines_cons_ne_nil (c : Char) (rest : List Char) :
    fileLines (c :: rest) ≠ [] := by
  by_cases h : c = '\n'
  · subst h
    simp [fileLines_cons_newline]
  · rw [fileLines_cons c rest h]
    cases hr : fileLines rest <;> simp

/-- Lines of an append split at a newline-terminated prefix. -/
theorem fileLines_append (s t : List Char) (h : s.getLast? = some '\n') :
    fileLines (s ++ t) = fileLines s ++ fileLines t := by
  induction s with
  | nil => simp at h
  | cons c s1 ih =>
    cases s1 with
    | nil =>
      have hc : c = '\n' := by simpa using h
      subst hc
      simp [fileLines_cons_newline, fileLines_nil]
    | cons c2 s2 =>
      have h1 : (c2 :: s2).getLast? = some '\n' := by
        rw [List.getLast?_cons_cons] at h
        exact h
      have ih1 := ih h1
      by_cases hc : c = '\n'
      · subst hc
        rw [List.cons_append, fileLines_cons_newline, fileLines_cons_newline, ih1]
        simp
      · rw [List.cons_append, fileLines_cons c _ hc, fileLines_cons c _ hc, ih1]
        cases hr : fileLines (c2 :: s2) with
        | nil => exact absurd hr (fileLines_cons_ne_nil c2 s2)
        | cons l ls => simp

/-- A newline-terminated chunk free of newlines is exactly one line. -/
theorem fileLines_line (msgId : List Char) (h : '\n' ∉ msgId) :
    fileLines (msgId ++ ['\n']) = [msgId] := by
  induction msgId with
  | nil => simp [fileLines_cons_newline, fileLines]
  | cons c id1 ih =>
    have hc : c ≠ '\n' := fun he => h (he ▸ List.mem_cons_self c id1)
    have h1 : '\n' ∉ id1 := fun he => h (List.mem_cons_of_mem c he)
    rw [List.cons_append, fileLines_cons c _ hc, ih h1]

/-- C10: appending an identifier with save_inbox_id and reloading the store
with load_inbox_saved_ids yields exactly the previous set plus that
identifier, for every identifier free of newlines and of leading or
trailing whitespace, starting from well-formed store content (empty or
newline-terminated, as save_inbox_id always leaves it). -/
theorem save_then_load_roundtrip (content msgId : List Char)
    (hnl : '\n' ∉ msgId)
    (hws : stripChars msgId = msgId)
    (hwf : content = [] ∨ content.getLast? = some '\n') :
    load_inbox_saved_ids (save_inbox_id content msgId) =
      insert msgId (load_inbox_saved_ids content) := by
  rcases hwf with h | h
  · subst h
    unfold save_inbox_id load_inbox_saved_ids
    rw [List.nil_append, fileLines_line msgId hnl]
    simp [hws, fileLines_nil]
  · unfold save_inbox_id load_inbox_saved_ids
    rw [List.append_assoc, fileLines_append content (msgId ++ ['\n']) h,
      fileLines_line msgId hnl, List.map_append]
    simp only [List.map_cons, List.map_nil, hws, List.toFinset_append]
    rw [Finset.union_comm]
    simp [Finset.insert_eq]

/-- C10 witness: the round trip evaluated on concrete store content a
followed by a newline and identifier b. -/
theorem save_then_load_roundtrip_witness :
    load_inbox_saved_ids (save_inbox_id ['a', '\n'] ['b']) =
      insert ['b'] (load_inbox_saved_ids ['a', '\n']) :=
  save_then_load_roundtrip ['a', '\n'] ['b'] (by decide) (by decide)
    (Or.inr (by decide))

end GmailAutosort
